import Mathlib

/-!
Verification of the Taxi-Scout order-matching and notification pipeline.

The definitions below are a shallow embedding of the Python sources:

* `src/utils/database.py` — `normalize_route_key`, `get_existing_notification`,
  `add_order_group_link`, `get_order_group_links`, `save_order_notification`,
  `is_user_in_quiet_hours`, `is_user_busy`, `is_blacklisted`;
* `src/utils/geo.py` — `is_within_radius`, `extract_price_from_text`
  (with its date/time/phone pre-cleaning regexes embedded as explicit
  backtracking matchers);
* `src/parser/order_parser.py` — `NOT_CITIES`, `is_valid_city_name`;
* `src/matcher.py` — `find_matching_drivers`, `check_driver_matches_order`,
  `OrderMatcher._notify_driver`;
* `src/parser/multi_user_monitor.py` — `MultiUserMonitor._handle_order`.

External collaborators (the SQL store, the geopy geodesic distance, the
Nominatim geocoder, the Telegram send/edit calls, Python set iteration
order) are modelled as explicit parameters or explicit state, as noted at
each definition.  Machine floats are modelled as rationals, datetimes as
integer seconds, and Python truthiness is made explicit everywhere the
source relies on it.
-/

/-! ### Python string semantics helpers -/

/-- Lower-casing of a single character as Python `str.lower` acts on the
alphabets used by this program: ASCII letters and the Cyrillic block
А..Я (U+0410..U+042F, mapped to а..я) plus Ё (U+0401 → U+0451). -/
def pyLowerChar (c : Char) : Char :=
  if 'A' ≤ c ∧ c ≤ 'Z' then Char.ofNat (c.toNat + 32)
  else if 0x410 ≤ c.toNat ∧ c.toNat ≤ 0x42F then Char.ofNat (c.toNat + 32)
  else if c.toNat = 0x401 then Char.ofNat 0x451
  else c

/-- Python `\s` / `str.strip` whitespace (the ASCII part, which is all the
program's inputs use). -/
def pyIsSpace (c : Char) : Bool :=
  c = ' ' ∨ c = '\t' ∨ c = '\n' ∨ c = '\r' ∨ c = '\x0b' ∨ c = '\x0c'

/-- Python `str.strip` on a character list. -/
def pyStripL (l : List Char) : List Char :=
  ((l.dropWhile pyIsSpace).reverse.dropWhile pyIsSpace).reverse

/-- Python `str.lower` on a character list. -/
def pyLowerL (l : List Char) : List Char := l.map pyLowerChar

/-- Truthiness of a Python optional integer (`None` and `0` are falsy). -/
def pyTruthyInt : Option Int → Bool
  | none => false
  | some n => n ≠ 0

/-- A word character for the `\b` assertion of Python `re` on this
program's alphabet: ASCII alphanumerics, underscore, and Cyrillic
letters (А..я plus Ё/ё). -/
def isWordChar (c : Char) : Bool :=
  c.isAlphanum ∨ c = '_' ∨ (0x410 ≤ c.toNat ∧ c.toNat ≤ 0x44F) ∨
    c.toNat = 0x401 ∨ c.toNat = 0x451

/-! ### `normalize_route_key` (src/utils/database.py lines 763-767) -/

/-- The per-endpoint normalization inside `normalize_route_key`:
`point_a.strip().lower() if point_a else ""`, on character lists. -/
def routeEndpoint (s : String) : List Char :=
  if s = "" then [] else pyLowerL (pyStripL s.data)

/-- Embedding of `normalize_route_key(point_a, point_b)`:
`f"{a}:{b}"` where `a`, `b` are the stripped, lower-cased endpoints. -/
def normalize_route_key (point_a point_b : String) : String :=
  String.mk (routeEndpoint point_a ++ ':' :: routeEndpoint point_b)

/-! ### `extract_price_from_text` (src/utils/geo.py lines 150-191)

The Python function first deletes date (`\d{1,2}[./]\d{1,2}[./]\d{2,4}`),
clock-time (`\d{1,2}\s*:\s*\d{2}`) and Russian phone-number
(`(?:8|7|\+7)[\s\-]?\(?\d{3}\)?[\s\-]?\d{3}[\s\-]?\d{2}[\s\-]?\d{2}`)
substrings via `re.sub`, then tries four `re.search` price rules in order.
Each regex is embedded as an explicit matcher with Python's leftmost
scan and greedy-with-backtracking quantifier semantics. -/

/-- Consume exactly `n` ASCII digits, returning the digits and the rest. -/
def takeDigitsC : Nat → List Char → Option (List Char × List Char)
  | 0, l => some ([], l)
  | n + 1, c :: l =>
      if c.isDigit then
        match takeDigitsC n l with
        | some (d, r) => some (c :: d, r)
        | none => none
      else none
  | _ + 1, [] => none

/-- Numeric value of a digit string, as Python `int`. -/
def digitsToNat (l : List Char) : Nat :=
  l.foldl (fun a c => a * 10 + (c.toNat - 48)) 0

/-- Greedy `\s*`. -/
def skipSpaces (l : List Char) : List Char := l.dropWhile pyIsSpace

/-- One date/phone separator position `[./]`. -/
def matchDotSlash : List Char → Option (List Char)
  | c :: l => if c = '.' ∨ c = '/' then some l else none
  | [] => none

/-- Tail `\d{2,4}` of the date pattern, greedy (4, then 3, then 2). -/
def dateLastDigits (l : List Char) : Option (List Char) :=
  (takeDigitsC 4 l).map (·.2) <|> (takeDigitsC 3 l).map (·.2) <|>
    (takeDigitsC 2 l).map (·.2)

/-- Middle `\d{1,2}[./]` of the date pattern followed by its tail. -/
def dateMiddle (l : List Char) : Option (List Char) :=
  (((takeDigitsC 2 l).map (·.2)).bind matchDotSlash).bind dateLastDigits <|>
    (((takeDigitsC 1 l).map (·.2)).bind matchDotSlash).bind dateLastDigits

/-- Attempt of `\d{1,2}[./]\d{1,2}[./]\d{2,4}` at the head of `l`; on
success returns the unconsumed rest. -/
def matchDateAt (l : List Char) : Option (List Char) :=
  (((takeDigitsC 2 l).map (·.2)).bind matchDotSlash).bind dateMiddle <|>
    (((takeDigitsC 1 l).map (·.2)).bind matchDotSlash).bind dateMiddle

/-- Tail `\s*:\s*\d{2}` of the time pattern. -/
def timeTail (l : List Char) : Option (List Char) :=
  match skipSpaces l with
  | ':' :: r => (takeDigitsC 2 (skipSpaces r)).map (·.2)
  | _ => none

/-- Attempt of `\d{1,2}\s*:\s*\d{2}` at the head of `l`. -/
def matchTimeAt (l : List Char) : Option (List Char) :=
  ((takeDigitsC 2 l).map (·.2)).bind timeTail <|>
    ((takeDigitsC 1 l).map (·.2)).bind timeTail

/-- Space-or-dash class `[\s\-]`. -/
def isSpaceDash (c : Char) : Bool := pyIsSpace c ∨ c = '-'

/-- Greedy optional single character `X?`: try consuming one `p`-character
and continuing, then fall back to continuing in place. -/
def optChar (p : Char → Bool) (k : List Char → Option (List Char))
    (l : List Char) : Option (List Char) :=
  match l with
  | c :: r => if p c then k r <|> k l else k l
  | [] => k l

/-- Phone pattern tail `\d{2}[\s\-]?\d{2}`. -/
def phonePart3 (l : List Char) : Option (List Char) :=
  ((takeDigitsC 2 l).map (·.2)).bind
    (optChar isSpaceDash (fun m => (takeDigitsC 2 m).map (·.2)))

/-- Phone pattern middle `\d{3}[\s\-]?` followed by its tail. -/
def phonePart2 (l : List Char) : Option (List Char) :=
  ((takeDigitsC 3 l).map (·.2)).bind (optChar isSpaceDash phonePart3)

/-- Phone pattern `\(?\d{3}\)?[\s\-]?` followed by the rest. -/
def phonePart1 (l : List Char) : Option (List Char) :=
  optChar (fun c => c = '(')
    (fun m => ((takeDigitsC 3 m).map (·.2)).bind
      (optChar (fun c => c = ')') (optChar isSpaceDash phonePart2))) l

/-- Attempt of the whole phone pattern
`(?:8|7|\+7)[\s\-]?\(?\d{3}\)?[\s\-]?\d{3}[\s\-]?\d{2}[\s\-]?\d{2}`
at the head of `l`. -/
def matchPhoneAt (l : List Char) : Option (List Char) :=
  match l with
  | '8' :: r => optChar isSpaceDash phonePart1 r
  | '7' :: r => optChar isSpaceDash phonePart1 r
  | '+' :: '7' :: r => optChar isSpaceDash phonePart1 r
  | _ => none

/-- Length consumed by a matcher at the head of `l`. -/
def matchLen (m : List Char → Option (List Char)) (l : List Char) :
    Option Nat :=
  (m l).map (fun r => l.length - r.length)

/-- Fuel-indexed engine of `re.sub(pattern, '', text)`: scan left to
right, delete every (non-empty) match, resume after the deleted match.
The fuel is the text length; every step consumes at least one char. -/
def subAllAux (m : List Char → Option Nat) : Nat → List Char → List Char
  | 0, l => l
  | _ + 1, [] => []
  | fuel + 1, c :: rest =>
      match m (c :: rest) with
      | some (k + 1) => subAllAux m fuel (rest.drop k)
      | _ => c :: subAllAux m fuel rest

/-- `re.sub(pattern, '', text)` for a pattern that never matches empty. -/
def subAll (m : List Char → Option Nat) (l : List Char) : List Char :=
  subAllAux m l.length l

/-- The cleaned text: dates, then clock times, then phone numbers
removed, exactly as lines 151-153 of `src/utils/geo.py`. -/
def cleanPriceText (l : List Char) : List Char :=
  subAll (matchLen matchPhoneAt)
    (subAll (matchLen matchTimeAt) (subAll (matchLen matchDateAt) l))

/-- Case-insensitive literal match (pattern given lower-case), returning
whether `l` starts with it. -/
def startsWithCI : List Char → List Char → Bool
  | [], _ => true
  | _ :: _, [] => false
  | p :: ps, c :: cs => pyLowerChar c = p ∧ startsWithCI ps cs

/-- Rule 1 body at one position: `(\d{1,3}),(\d{3})` for a fixed first
group width `k` (the trailing `\s*(?:руб|₽|р\.?|рублей)?` is optional
throughout and can never fail). Yields `int(g1 + g2)`. -/
def commaAtK (k : Nat) (l : List Char) : Option Nat :=
  match takeDigitsC k l with
  | some (d1, ',' :: r1) =>
      match takeDigitsC 3 r1 with
      | some (d2, _) => some (digitsToNat (d1 ++ d2))
      | none => none
  | _ => none

/-- Rule 1 at one position, greedy over the `\d{1,3}` width. -/
def commaAt (l : List Char) : Option Nat :=
  commaAtK 3 l <|> commaAtK 2 l <|> commaAtK 1 l

/-- Leftmost search for rule 1 (`re.search` position scan). -/
def searchComma : List Char → Option Nat
  | [] => none
  | c :: rest => commaAt (c :: rest) <|> searchComma rest

/-- Word-boundary `\b` between a previous character and the rest of the
text (out-of-string counts as non-word). -/
def wordBoundaryAfter (prev : Char) (l : List Char) : Bool :=
  match l with
  | [] => isWordChar prev
  | d :: _ => isWordChar prev ≠ isWordChar d

/-- The `р\.?\b` alternative of rule 2's currency suffix: greedy on the
dot, falling back to the dot-less parse when `\b` fails after the dot. -/
def rubleDotSuffix : List Char → Bool
  | [] => false
  | c :: rest =>
      (pyLowerChar c == 'р') &&
        (match rest with
         | '.' :: rest2 => wordBoundaryAfter '.' rest2 || wordBoundaryAfter c rest
         | _ => wordBoundaryAfter c rest)

/-- Rule 2's currency suffix `(?:руб|₽|р\.?\b)` (case-insensitive). -/
def exactSuffix (l : List Char) : Bool :=
  startsWithCI ['р', 'у', 'б'] l ||
    (match l with | '₽' :: _ => true | _ => false) || rubleDotSuffix l

/-- Rule 2 body at one position for first-group width `k`:
`(\d{3,5})\s*(?:руб|₽|р\.?\b)`. -/
def exactAtK (k : Nat) (l : List Char) : Option Nat :=
  match takeDigitsC k l with
  | some (d, r) => if exactSuffix (skipSpaces r) then some (digitsToNat d) else none
  | none => none

/-- Rule 2 at one position, greedy over the `\d{3,5}` width. -/
def exactAt (l : List Char) : Option Nat :=
  exactAtK 5 l <|> exactAtK 4 l <|> exactAtK 3 l

/-- Leftmost search for rule 2. -/
def searchExact : List Char → Option Nat
  | [] => none
  | c :: rest => exactAt (c :: rest) <|> searchExact rest

/-- Negative lookahead `(?!\d)`. -/
def notDigitAt : List Char → Bool
  | [] => true
  | c :: _ => ¬ c.isDigit

/-- Optional currency of rule 3, `(?:руб|₽|р\.?|на руки)?`, each
alternative (and the empty fallback) followed by the final `(?!\d)`.
All alternatives are combined disjunctively: the overall match value
(group 1) does not depend on which branch succeeds. -/
def thousandsCurrency (r : List Char) : Bool :=
  (startsWithCI ['р', 'у', 'б'] r && notDigitAt (r.drop 3)) ||
    (match r with | '₽' :: t => notDigitAt t | _ => false) ||
    (match r with
     | c :: t =>
         (pyLowerChar c == 'р') &&
           (match t with
            | '.' :: t2 => notDigitAt t2 || notDigitAt t
            | _ => notDigitAt t)
     | [] => false) ||
    (startsWithCI ['н', 'а', ' ', 'р', 'у', 'к', 'и'] r && notDigitAt (r.drop 7)) ||
    notDigitAt r

/-- Rule 3 continuation `\s*(?:руб|₽|р\.?|на руки)?(?!\d)`.  The
second disjunct embeds `\s*` backtracking: whenever at least one space
is present, retracting the last space leaves a non-digit (the space)
under `(?!\d)` with the empty currency alternative, so the continuation
succeeds. -/
def thousandsSpacesCurrency (l : List Char) : Bool :=
  thousandsCurrency (skipSpaces l) ||
    (match l with | c :: _ => pyIsSpace c | [] => false)

/-- Rule 3 continuation `\.?\s*(?:руб|₽|р\.?|на руки)?(?!\d)` after the
unit word, greedy on the dot. -/
def thousandsAfterUnit (l : List Char) : Bool :=
  match l with
  | '.' :: r => thousandsSpacesCurrency r ∨ thousandsSpacesCurrency l
  | _ => thousandsSpacesCurrency l

/-- Rule 3 unit `(?:к|тыс|т)` (in that alternation order), each branch
followed by the rest of the pattern. -/
def thousandsUnit (l : List Char) : Bool :=
  (match l with
   | c :: r => (pyLowerChar c == 'к') && thousandsAfterUnit r
   | [] => false) ||
    (startsWithCI ['т', 'ы', 'с'] l && thousandsAfterUnit (l.drop 3)) ||
    (match l with
     | c :: r => (pyLowerChar c == 'т') && thousandsAfterUnit r
     | [] => false)

/-- Rule 3 at one position (`prev` is the character before the position,
for the `(?<!\d)` lookbehind), for first-group width `k`:
`(?<!\d)(\d{1,2})\s*(?:к|тыс|т)\.?\s*(?:руб|₽|р\.?|на руки)?(?!\d)`,
multiplied by 1000. -/
def thousandsAtK (k : Nat) (prev : Option Char) (l : List Char) : Option Nat :=
  if (match prev with | some c => c.isDigit | none => false) then none
  else
    match takeDigitsC k l with
    | some (d, r) =>
        if thousandsUnit (skipSpaces r) then some (digitsToNat d * 1000) else none
    | none => none

/-- Rule 3 at one position, greedy over the `\d{1,2}` width. -/
def thousandsAt (prev : Option Char) (l : List Char) : Option Nat :=
  thousandsAtK 2 prev l <|> thousandsAtK 1 prev l

/-- Leftmost search for rule 3, tracking the previous character. -/
def searchThousandsAux (prev : Option Char) : List Char → Option Nat
  | [] => none
  | c :: rest => thousandsAt prev (c :: rest) <|> searchThousandsAux (some c) rest

/-- Leftmost search for rule 3. -/
def searchThousands (l : List Char) : Option Nat := searchThousandsAux none l

/-- Rule 4 digits-and-boundary `(\d{4,5})(?:\s|$)` for width `k`. -/
def standaloneAtK (k : Nat) (l : List Char) : Option Nat :=
  match takeDigitsC k l with
  | some (d, []) => some (digitsToNat d)
  | some (d, c :: _) => if pyIsSpace c then some (digitsToNat d) else none
  | none => none

/-- Rule 4 digits at one position, greedy over the width. -/
def standaloneDigits (l : List Char) : Option Nat :=
  standaloneAtK 5 l <|> standaloneAtK 4 l

/-- Leftmost search for the `\s`-anchored branch of rule 4: at every
position the pattern `\s(\d{4,5})(?:\s|$)` is attempted. -/
def searchStandaloneAfterSpace : List Char → Option Nat
  | [] => none
  | c :: rest =>
      (if pyIsSpace c then standaloneDigits rest else none) <|>
        searchStandaloneAfterSpace rest

/-- Rule 4 `(?:^|\s)(\d{4,5})(?:\s|$)`: the `^` branch at position 0,
then the `\s` branch at every position. -/
def searchStandalone (l : List Char) : Option Nat :=
  standaloneDigits l <|> searchStandaloneAfterSpace l

/-- Bounds check `500 <= price <= 500000` applied to every rule. -/
def inPriceRange (p : Nat) : Bool := 500 ≤ p ∧ p ≤ 500000

/-- Fall-through of the source: a rule that found a candidate returns it
when in range, otherwise (no match, or out of range) the next rule runs. -/
def priceStep (c : Option Nat) (next : Option Nat) : Option Nat :=
  match c with
  | some p => if inPriceRange p then some p else next
  | none => next

/-- The four price rules of lines 155-190, in source order, over an
already-cleaned text. -/
def priceRules (l : List Char) : Option Nat :=
  priceStep (searchComma l)
    (priceStep (searchExact l)
      (priceStep (searchThousands l) (priceStep (searchStandalone l) none)))

/-- Embedding of `extract_price_from_text(text)`. -/
def extract_price_from_text (text : String) : Option Nat :=
  priceRules (cleanPriceText text.data)

/-- The claim's reading of the rule pipeline: the first rule in the fixed
order whose candidate lies in the plausible range determines the result. -/
def firstValidCandidate : List (Option Nat) → Option Nat
  | [] => none
  | c :: cs =>
      match c with
      | some p => if inPriceRange p then some p else firstValidCandidate cs
      | none => firstValidCandidate cs

/-! ### `is_valid_city_name` (src/parser/order_parser.py lines 12-70)

The dictionaries `KNOWN_CITIES`, `CITY_ALIASES` and `CITY_DECLENSIONS`
come from `src/config`, which is not part of the sources; they and the
external Nominatim geocoder are passed as parameters.  `NOT_CITIES` is
defined verbatim in `order_parser.py` and is embedded literally. -/

/-- The stoplist `NOT_CITIES` of src/parser/order_parser.py, verbatim
(the Python source is a set literal; list membership is the same test). -/
def NOT_CITIES : List String :=
  ["мин", "час", "чел", "человек", "человека", "пассажир", "пассажира",
   "пассажиров", "руб", "рубль", "рублей", "тыс", "место", "места",
   "багаж", "багажа", "сегодня", "завтра", "вчера", "утро", "день",
   "вечер", "ночь", "утром", "вечером", "днём", "ночью", "январь",
   "февраль", "март", "апрель", "май", "июнь", "июль", "август",
   "сентябрь", "октябрь", "ноябрь", "декабрь", "пн", "вт", "ср", "чт",
   "пт", "сб", "вс", "понедельник", "вторник", "среда", "четверг",
   "пятница", "суббота", "воскресенье", "срочно", "свободно", "занято",
   "закрыт", "закрыто", "открыт", "открыто", "такси", "водитель",
   "машина", "авто", "автомобиль", "междугороднее", "межгород", "цена",
   "стоимость", "торг", "договорная", "договор", "комфорт", "эконом",
   "бизнес", "премиум", "детское", "кресло", "животное", "питомец",
   "заказ", "заявка", "бронь", "бронирование", "туда", "обратно",
   "попутно", "нал", "наличные", "карта", "перевод", "оплата",
   "трансфер", "нсфер", "сфер", "границ", "без-границ", "безграниц",
   "империя", "премьер", "минивен", "отель", "санкт", "петербург",
   "россия", "область", "край", "республика", "округ", "сибирское",
   "жд", "аэропорт", "вокзал", "станция", "остановка", "услуга",
   "услуги", "сервис"]

/-- Python `str.isdigit` on the candidate (non-empty, all ASCII digits —
the inputs of this program contain no other digit scripts). -/
def pyIsDigitStr (l : List Char) : Bool :=
  (match l with | [] => false | _ :: _ => true) && l.all Char.isDigit

/-- Full match of `^[+-]?\d+([.,]\d+)?$`: optional sign, digits, and an
optional decimal part reaching the end of the string. -/
def numberLike (l : List Char) : Bool :=
  let l1 := match l with
    | c :: r => if c = '+' ∨ c = '-' then r else l
    | [] => l
  let ds := l1.takeWhile Char.isDigit
  let rest := l1.dropWhile Char.isDigit
  (match ds with | [] => false | _ :: _ => true) &&
    (match rest with
     | [] => true
     | c :: r =>
         (c == '.' || c == ',') &&
           (match r with | [] => false | _ :: _ => true) && r.all Char.isDigit)

/-- Embedding of `is_valid_city_name(name)`.  `known`, `aliases` and
`declensions` stand for `KNOWN_CITIES`, the keys of `CITY_ALIASES` and
the keys of `CITY_DECLENSIONS` (external configuration); `geocode`
stands for `get_coordinates` (the external geocoder, applied to the
original, un-normalized name as in the source). -/
def is_valid_city_name (known aliases declensions : List String)
    (geocode : String → Option (ℚ × ℚ)) (name : String) : Bool :=
  if name = "" then false
  else
    let nl := String.mk (pyStripL (pyLowerL name.data))
    if nl.data.length < 3 then false
    else if NOT_CITIES.contains nl then false
    else if pyIsDigitStr nl.data then false
    else if (match nl.data with | c :: _ => c.isDigit | [] => false) then false
    else if numberLike nl.data then false
    else if (known.map (fun c => String.mk (pyLowerL c.data))).contains nl then true
    else if aliases.contains nl then true
    else if declensions.contains nl then true
    else (geocode name).isSome

/-- Modelled from the spec: the claim's own validity rule for a
candidate city name — at least 3 characters, not purely numeric, not in
the stoplist, and either in the known-city dictionary, the alias table,
the declension table, or independently geocodable (on the same
lower-cased, trimmed form the code compares with). -/
def spec_city_valid (known aliases declensions : List String)
    (geocode : String → Option (ℚ × ℚ)) (name : String) : Bool :=
  let nl := String.mk (pyStripL (pyLowerL name.data))
  3 ≤ nl.data.length && !pyIsDigitStr nl.data && !NOT_CITIES.contains nl &&
    ((known.map (fun c => String.mk (pyLowerL c.data))).contains nl ||
      aliases.contains nl || declensions.contains nl || (geocode name).isSome)

/-! ### Driver matching (src/matcher.py lines 19-86 and 131-151)

Floats are modelled as rationals.  The geopy geodesic distance
(`calculate_distance` in src/utils/geo.py) is an external library call
and is passed as a parameter `dist`; `is_within_radius` is embedded on
top of it exactly as in the source (`distance <= radius_km`).  The
driver-roster queries `get_active_users` / `get_users_subscribed_to_group`
are external storage reads and are passed as parameters. -/

/-- A persisted driver row, with the fields `find_matching_drivers`
reads.  Optional numeric fields are `None`-able in the schema and the
code tests them by truthiness. -/
structure Driver where
  id : Int
  telegram_id : Int
  username : Option String
  first_name : Option String
  latitude : Option ℚ
  longitude : Option ℚ
  radius_km : Option ℚ
  min_price : Option Int
deriving DecidableEq

/-- The fields of a `ParsedOrder` that driver matching reads. -/
structure MatchOrder where
  point_a_coords : Option (ℚ × ℚ)
  price : Option Int
  source_group_id : Option Int
  source_group : String
deriving DecidableEq

/-- One entry of the `matching` result list (the `driver_info` dict). -/
structure MatchInfo where
  user_id : Int
  telegram_id : Int
  db_user_id : Int
  username : Option String
  first_name : Option String
  latitude : Option ℚ
  longitude : Option ℚ
  radius_km : Option ℚ
  min_price : Option Int
  distance_to_order : ℚ
deriving DecidableEq

/-- Python `round(x, 1)` on rationals: round half to even at one decimal. -/
def pyRound1 (q : ℚ) : ℚ :=
  let t := q * 10
  let f : ℤ := ⌊t⌋
  let r : ℚ := t - f
  let n : ℤ :=
    if r < 1/2 then f else if 1/2 < r then f + 1 else if Even f then f else f + 1
  (n : ℚ) / 10

/-- Embedding of `is_within_radius(driver_coords, order_coords, radius_km)`
over the external distance function: `distance <= radius_km`. -/
def is_within_radius (dist : ℚ × ℚ → ℚ × ℚ → ℚ) (driver_coords order_coords : ℚ × ℚ)
    (radius_km : ℚ) : Bool :=
  dist driver_coords order_coords ≤ radius_km

/-- Python `int(str)` for the strings this program feeds it: optional
sign and ASCII digits after stripping surrounding whitespace. -/
def pyParseInt (s : String) : Option Int :=
  let l := pyStripL s.data
  let core : Option (Bool × List Char) :=
    match l with
    | '-' :: r => some (true, r)
    | '+' :: r => some (false, r)
    | r => some (false, r)
  match core with
  | some (neg, ds) =>
      if (match ds with | [] => false | _ :: _ => true) && ds.all Char.isDigit then
        some (if neg then -(digitsToNat ds : Int) else (digitsToNat ds : Int))
      else none
  | none => none

/-- Truthiness of a Python optional rational (`None` and `0.0` are falsy). -/
def pyTruthyRat : Option ℚ → Bool
  | none => false
  | some q => q ≠ 0

/-- The `or`-defaulted radius: `driver.radius_km or 50`. -/
def effRadius (r : Option ℚ) : ℚ :=
  match r with
  | none => 50
  | some q => if q = 0 then 50 else q

/-- The `or`-defaulted price floor: `driver.min_price or 0`. -/
def effMinPrice (m : Option Int) : Int :=
  match m with
  | none => 0
  | some p => p

/-- The price rejection of lines 62-65 (also 147-148):
`order.price and min_price > 0 and order.price < min_price`. -/
def priceExcluded (price : Option Int) (min_price : Option Int) : Bool :=
  match price with
  | none => false
  | some p => p ≠ 0 && 0 < effMinPrice min_price && p < effMinPrice min_price

/-- The `driver_info` dict built at lines 70-81 for a surviving driver. -/
def driverInfo (d : Driver) (rounded_distance : ℚ) : MatchInfo :=
  { user_id := d.telegram_id, telegram_id := d.telegram_id,
    db_user_id := d.id, username := d.username,
    first_name := d.first_name, latitude := d.latitude,
    longitude := d.longitude, radius_km := d.radius_km,
    min_price := d.min_price, distance_to_order := rounded_distance }

/-- One iteration of the matching loop (lines 41-82): `none` when the
driver is skipped, otherwise the `driver_info` entry. -/
def matchOne (dist : ℚ × ℚ → ℚ × ℚ → ℚ) (pa : ℚ × ℚ) (price : Option Int)
    (d : Driver) : Option MatchInfo :=
  if !(pyTruthyRat d.latitude && pyTruthyRat d.longitude) then none
  else
    let coords : ℚ × ℚ := (d.latitude.getD 0, d.longitude.getD 0)
    let distance := dist coords pa
    if !is_within_radius dist coords pa (effRadius d.radius_km) then none
    else if priceExcluded price d.min_price then none
    else some (driverInfo d (pyRound1 distance))

/-- The candidate roster selection of lines 26-37; `active` models
`get_active_users()` and `subs` models
`get_users_subscribed_to_group(group_id)`. -/
def selectDrivers (active : List Driver) (subs : Int → List Driver)
    (order : MatchOrder) (filter_by_group : Bool) : List Driver :=
  if filter_by_group && pyTruthyInt order.source_group_id then
    subs (order.source_group_id.getD 0)
  else if filter_by_group && order.source_group ≠ "" then
    match pyParseInt order.source_group with
    | some g => subs g
    | none => active
  else active

/-- Embedding of `find_matching_drivers(order, filter_by_group)`. -/
def find_matching_drivers (dist : ℚ × ℚ → ℚ × ℚ → ℚ) (active : List Driver)
    (subs : Int → List Driver) (order : MatchOrder)
    (filter_by_group : Bool := true) : List MatchInfo :=
  match order.point_a_coords with
  | none => []
  | some pa =>
      ((selectDrivers active subs order filter_by_group).filterMap
          (matchOne dist pa order.price)).mergeSort
        (fun a b => a.distance_to_order ≤ b.distance_to_order)

/-- Embedding of `check_driver_matches_order(driver, order)`; the Python
pair `(False, None)` / `(True, distance)` is modelled as an `Option`. -/
def check_driver_matches_order (dist : ℚ × ℚ → ℚ × ℚ → ℚ) (d : Driver)
    (order : MatchOrder) : Option ℚ :=
  match order.point_a_coords with
  | none => none
  | some pa =>
      if !(pyTruthyRat d.latitude && pyTruthyRat d.longitude) then none
      else
        let coords : ℚ × ℚ := (d.latitude.getD 0, d.longitude.getD 0)
        if !is_within_radius dist coords pa (effRadius d.radius_km) then none
        else if priceExcluded order.price d.min_price then none
        else some (pyRound1 (dist coords pa))

/-! ### Persisted notification state (src/utils/database.py) and
`OrderMatcher._notify_driver` (src/matcher.py lines 242-351)

The SQL store is modelled as explicit lists of rows; timestamps are
integer seconds (`datetime.utcnow()` is the parameter `now`), the
Moscow-local clock string used by quiet hours is the parameter `nowHM`.
Row insertion order models `created_at` ordering.  The Telegram bot
callbacks `bot_edit_func` / `bot_send_func` are external delivery calls:
their presence, success and returned message id are parameters, and each
performed call is recorded as an `Effect`. -/

/-- A row of `OrderNotification`. -/
structure NotifRecord where
  order_id : Int
  user_id : Int
  message_id : Option Int
  route_key : String
  sent_at : Int
deriving DecidableEq

/-- A row of `OrderGroupLink`. -/
structure GroupLinkRecord where
  route_key : String
  user_id : Int
  group_id : Option Int
  group_title : String
  source_link : String
  message_id : Option Int
  author_id : Option Int
  author_username : Option String
  author_first_name : Option String
deriving DecidableEq

/-- A row of `DriverSettings` (the fields the suppression checks read). -/
structure SettingsRecord where
  user_id : Int
  quiet_hours_enabled : Bool
  quiet_hours_start : String
  quiet_hours_end : String
  busy_until : Option Int
deriving DecidableEq

/-- A row of `Blacklist`. -/
structure BlacklistRecord where
  user_id : Int
  block_type : String
  blocked_id : Int
deriving DecidableEq

/-- The persisted store as the notification pipeline sees it. -/
structure DB where
  notifications : List NotifRecord
  group_links : List GroupLinkRecord
  settings : List SettingsRecord
  blacklist : List BlacklistRecord
deriving DecidableEq

/-- Python string `<` (lexicographic by code point). -/
def pyStrLtL : List Char → List Char → Bool
  | [], [] => false
  | [], _ :: _ => true
  | _ :: _, [] => false
  | a :: x, b :: y =>
      if a.toNat < b.toNat then true
      else if b.toNat < a.toNat then false
      else pyStrLtL x y

/-- Python string `<=`. -/
def pyStrLe (s t : String) : Bool := !pyStrLtL t.data s.data

/-- Embedding of `is_user_in_quiet_hours(user_id)`; `nowHM` is
`datetime.now(Moscow).strftime('%H:%M')`, compared as strings exactly
as the source does. -/
def is_user_in_quiet_hours (db : DB) (user_id : Int) (nowHM : String) : Bool :=
  match db.settings.find? (fun s => s.user_id == user_id) with
  | none => false
  | some s =>
      if !s.quiet_hours_enabled then false
      else
        if pyStrLe s.quiet_hours_start s.quiet_hours_end then
          pyStrLe s.quiet_hours_start nowHM && pyStrLe nowHM s.quiet_hours_end
        else
          pyStrLe s.quiet_hours_start nowHM || pyStrLe nowHM s.quiet_hours_end

/-- Update the first settings row of a user. -/
def updateSettingsRow (f : SettingsRecord → SettingsRecord) (user_id : Int) :
    List SettingsRecord → List SettingsRecord
  | [] => []
  | s :: rest =>
      if s.user_id == user_id then f s :: rest
      else s :: updateSettingsRow f user_id rest

/-- Embedding of `is_user_busy(user_id)`: busy while `busy_until` lies in
the future; an expired `busy_until` is cleared in the store as a side
effect, so the store is returned too. -/
def is_user_busy (db : DB) (user_id : Int) (now : Int) : Bool × DB :=
  match db.settings.find? (fun s => s.user_id == user_id) with
  | none => (false, db)
  | some s =>
      match s.busy_until with
      | none => (false, db)
      | some b =>
          if now < b then (true, db)
          else
            let cleared :=
              updateSettingsRow (fun t => { t with busy_until := none })
                user_id db.settings
            (false, { db with settings := cleared })

/-- Embedding of `is_blacklisted(user_id, author_id, group_id)`: the
author check runs only for a truthy `author_id`, the group check only
for a truthy `group_id`. -/
def is_blacklisted (db : DB) (user_id : Int) (author_id group_id : Option Int) :
    Bool :=
  (pyTruthyInt author_id &&
      db.blacklist.any (fun e =>
        e.user_id == user_id && e.block_type == "author" &&
          e.blocked_id == author_id.getD 0)) ||
    (pyTruthyInt group_id &&
      db.blacklist.any (fun e =>
        e.user_id == user_id && e.block_type == "group" &&
          e.blocked_id == group_id.getD 0))

/-- The SQL filter of `get_existing_notification`: same user, same route
key, non-NULL `message_id`, sent within the last `hours` hours. -/
def freshNotif (user_id : Int) (route_key : String) (hours now : Int)
    (n : NotifRecord) : Bool :=
  n.user_id == user_id && n.route_key == route_key && n.message_id.isSome &&
    now - hours * 3600 ≤ n.sent_at

/-- `ORDER BY sent_at DESC ... first()` over a row list. -/
def latestNotif : List NotifRecord → Option NotifRecord
  | [] => none
  | n :: rest =>
      match latestNotif rest with
      | none => some n
      | some m => if m.sent_at > n.sent_at then some m else some n

/-- Embedding of `get_existing_notification(user_id, route_key, hours)`.
`now` models `datetime.utcnow()` in seconds. -/
def get_existing_notification (db : DB) (user_id : Int) (route_key : String)
    (hours now : Int) : Option NotifRecord :=
  latestNotif (db.notifications.filter (freshNotif user_id route_key hours now))

/-- Embedding of `get_order_group_links(route_key, user_id)` (rows in
`created_at` order, which row order models). -/
def get_order_group_links (db : DB) (route_key : String) (user_id : Int) :
    List GroupLinkRecord :=
  db.group_links.filter (fun l => l.route_key == route_key && l.user_id == user_id)

/-- The triple filter of `add_order_group_link`'s existence query. -/
def tripleMatch (route_key : String) (user_id : Int) (source_link : String)
    (l : GroupLinkRecord) : Bool :=
  l.route_key == route_key && l.user_id == user_id && l.source_link == source_link

/-- Number of stored rows of one (route_key, user, source_link) triple. -/
def tripleCount (db : DB) (route_key : String) (user_id : Int)
    (source_link : String) : Nat :=
  db.group_links.countP (tripleMatch route_key user_id source_link)

/-- Embedding of `add_order_group_link(...)`: return the already-stored
row of the (route_key, user_id, source_link) triple when one exists,
otherwise insert a fresh row. -/
def add_order_group_link (db : DB) (route_key : String) (user_id : Int)
    (group_id : Option Int) (group_title : String) (source_link : String)
    (message_id author_id : Option Int) (author_username author_first_name :
      Option String) : Option GroupLinkRecord × DB :=
  match db.group_links.find? (tripleMatch route_key user_id source_link) with
  | some l => (some l, db)
  | none =>
      let l : GroupLinkRecord :=
        { route_key := route_key, user_id := user_id, group_id := group_id,
          group_title := group_title, source_link := source_link,
          message_id := message_id, author_id := author_id,
          author_username := author_username,
          author_first_name := author_first_name }
      (some l, { db with group_links := db.group_links ++ [l] })

/-- Embedding of `save_order_notification(order_id, user_id, message_id,
route_key)`; `sent_at` takes the current time. -/
def save_order_notification (db : DB) (order_id user_id : Int)
    (message_id : Option Int) (route_key : String) (now : Int) : DB :=
  { db with notifications :=
      db.notifications ++
        [{ order_id := order_id, user_id := user_id, message_id := message_id,
           route_key := route_key, sent_at := now }] }

/-- An outward delivery action performed by `_notify_driver`. -/
inductive Effect where
  | editMsg (message_id : Int)
  | sendMsg (result : Option Int)
deriving DecidableEq

/-- The `ParsedOrder` fields `_notify_driver` reads. -/
structure NotifyOrder where
  source_link : String
  group_title : Option String
  message_id : Option Int
  author_id : Option Int
  author_username : Option String
  author_first_name : Option String
deriving DecidableEq

/-- The defaulted group title `order.group_title or "Группа"`. -/
def pyGroupTitle : Option String → String
  | some t => if t = "" then "Группа" else t
  | none => "Группа"

/-- The send branch of `_notify_driver` (lines 308-351): add the group
link, call `bot_send_func`, and record the notification when the send
returned a truthy message id.  `sendResult = none` covers both an
exception and a falsy return, neither of which stores a record;
`hasSend` is `bot_send_func is not None`. -/
def notifySendBranch (db : DB) (hasSend : Bool) (sendResult : Option Int)
    (db_user_id : Int) (o : NotifyOrder) (order_db_id : Int)
    (route_key : String) (group_id : Option Int) (now : Int) : DB × List Effect :=
  if !hasSend then (db, [])
  else
    let db1 := (add_order_group_link db route_key db_user_id group_id
      (pyGroupTitle o.group_title) o.source_link o.message_id o.author_id
      o.author_username o.author_first_name).2
    match sendResult with
    | some sid =>
        if sid ≠ 0 then
          (save_order_notification db1 order_db_id db_user_id (some sid)
            route_key now, [Effect.sendMsg (some sid)])
        else (db1, [Effect.sendMsg (some sid)])
    | none => (db1, [Effect.sendMsg none])

/-- The body of `_notify_driver` after the three suppression checks
(lines 259-351): look up the fresh notification, fold the group link in,
then edit in place (falling through to a fresh send on edit failure) or
send anew. -/
def notifyAfterChecks (db : DB) (hasEdit editOk hasSend : Bool)
    (sendResult : Option Int) (db_user_id : Int) (o : NotifyOrder)
    (order_db_id : Int) (route_key : String) (group_id : Option Int)
    (now : Int) : DB × List Effect :=
  let existing := get_existing_notification db db_user_id route_key 2 now
  let existing_links := get_order_group_links db route_key db_user_id
  let already := existing_links.any (fun l => l.source_link == o.source_link)
  match existing with
  | some n =>
      if pyTruthyInt n.message_id && hasEdit then
        let db2 :=
          if !already then
            (add_order_group_link db route_key db_user_id group_id
              (pyGroupTitle o.group_title) o.source_link o.message_id
              o.author_id o.author_username o.author_first_name).2
          else db
        if editOk then (db2, [Effect.editMsg (n.message_id.getD 0)])
        else
          let rest := notifySendBranch db2 hasSend sendResult db_user_id o
            order_db_id route_key group_id now
          (rest.1, Effect.editMsg (n.message_id.getD 0) :: rest.2)
      else
        notifySendBranch db hasSend sendResult db_user_id o order_db_id
          route_key group_id now
  | none =>
      notifySendBranch db hasSend sendResult db_user_id o order_db_id
        route_key group_id now

/-- Embedding of `OrderMatcher._notify_driver`.  `hasEdit` is
`bot_edit_func is not None`; `editOk` tells whether the edit call
succeeds (an exception falls through to the send branch after the
group-link bookkeeping, exactly as the source's `try`/`except`). -/
def notify_driver (db : DB) (hasEdit editOk hasSend : Bool)
    (sendResult : Option Int) (db_user_id : Int) (o : NotifyOrder)
    (order_db_id : Int) (route_key : String) (group_id : Option Int)
    (nowHM : String) (now : Int) : DB × List Effect :=
  if is_user_in_quiet_hours db db_user_id nowHM then (db, [])
  else
    let busy := is_user_busy db db_user_id now
    if busy.1 then (busy.2, [])
    else if is_blacklisted busy.2 db_user_id o.author_id group_id then
      (busy.2, [])
    else
      notifyAfterChecks busy.2 hasEdit editOk hasSend sendResult db_user_id o
        order_db_id route_key group_id now

/-! ### Fleet-wide order deduplication
(src/parser/multi_user_monitor.py lines 329-348)

`processed_orders` is a Python `set`; the model keeps its elements in
insertion order (oldest first) so that recency is expressible, and takes
the set's unspecified iteration order — what `list(self.processed_orders)`
observes — as a parameter `enum`, constrained where needed to enumerate
exactly the set's elements. -/

/-- Key construction of `_handle_order`:
`f"{group_id}_{msg_id}"` with `group_id = source_group_id or source_group`
and `msg_id = message_id or last path component of source_link or
"unknown"`. -/
def orderKey (source_group_id : Option Int) (source_group : String)
    (message_id : Option Int) (source_link : String) : String :=
  let gid := if pyTruthyInt source_group_id then
      toString (source_group_id.getD 0) else source_group
  let mid := if pyTruthyInt message_id then toString (message_id.getD 0)
    else if source_link ≠ "" then
      (source_link.splitOn "/").getLastD ""
    else "unknown"
  gid ++ "_" ++ mid

/-- Embedding of the body of `MultiUserMonitor._handle_order` for one
already-computed key: skip when the key was seen, otherwise remember it,
evict the first 5000 entries of the set's iteration order when the set
exceeds 10000 entries, and invoke the order callback.  The returned
`Bool` tells whether the callback ran. -/
def handleOrderKey (enum : List String → List String) (st : List String)
    (key : String) : List String × Bool :=
  if st.contains key then (st, false)
  else
    let st1 := st ++ [key]
    let st2 :=
      if 10000 < st1.length then
        let old := (enum st1).take 5000
        st1.filter (fun x => !old.contains x)
      else st1
    (st2, true)

/-- Iterating a state transformer a given number of times. -/
def iterN {α : Type} (f : α → α) : Nat → α → α
  | 0, a => a
  | n + 1, a => iterN f n (f a)

/-- Distinct order keys for exercising the deduplication set (the n-th
key is a run of n copies of one letter, so keys of different ages are
provably distinct by length). -/
def dedupKey (n : Nat) : String := String.mk (List.replicate n 'a')

/-- First 5001 keys, in insertion (age) order. -/
def dedupStA : List String := (List.range 5001).map dedupKey

/-- Next 4999 keys, in insertion (age) order. -/
def dedupStB : List String := (List.range' 5001 4999).map dedupKey

/-- A processed-orders set of exactly 10000 entries, oldest first. -/
def dedupSt : List String := dedupStA ++ dedupStB

/-- Helper: `takeWhile p` of a list all of whose members satisfy `p`,
followed by an element that does not, recovers the first list. -/
theorem takeWhile_append_stop {p : Char → Bool} :
    ∀ (l : List Char) (c : Char) (r : List Char), (∀ x ∈ l, p x = true) →
      p c = false → List.takeWhile p (l ++ c :: r) = l := by
  intro l c r hl hc
  induction l with
  | nil => simp [List.takeWhile, hc]
  | cons a t ih =>
      have ha : p a = true := hl a (by simp)
      simp only [List.cons_append, List.takeWhile, ha]
      have := ih (fun x hx => hl x (by simp [hx]))
      simp [this]

/-- If neither `x` nor `y` contains the separator, gluing them in the two
orders around the separator can only coincide when `x = y`. -/
theorem sep_glue_inj {x y : List Char} (hx : ∀ c ∈ x, c ≠ ':')
    (hy : ∀ c ∈ y, c ≠ ':') (h : x ++ ':' :: y = y ++ ':' :: x) : x = y := by
  have hx2 : ∀ c ∈ x, (fun d => decide (d ≠ ':')) c = true := by
    intro c hc; simpa using hx c hc
  have hy2 : ∀ c ∈ y, (fun d => decide (d ≠ ':')) c = true := by
    intro c hc; simpa using hy c hc
  have hcolon : (fun d => decide (d ≠ ':')) ':' = false := by simp
  have h1 := takeWhile_append_stop x ':' y hx2 hcolon
  have h2 := takeWhile_append_stop y ':' x hy2 hcolon
  calc x = List.takeWhile (fun d => decide (d ≠ ':')) (x ++ ':' :: y) := h1.symm
    _ = List.takeWhile (fun d => decide (d ≠ ':')) (y ++ ':' :: x) := by rw [h]
    _ = y := h2

/-! ## Claim C5 — route key shape and direction-sensitivity -/

/-- The endpoint normalization equals lower-casing the trimmed name
(also for the falsy-empty special case of the source). -/
theorem routeEndpoint_eq (a : String) :
    routeEndpoint a = pyLowerL (pyStripL a.data) := by
  unfold routeEndpoint
  by_cases h : a = ""
  · subst h; rfl
  · simp [h]

/-- C5 counterexample: the claim's universal asymmetry statement fails
when a normalized city name may itself contain the separator; with
a = "a" and b = "a:a" the normalized forms differ yet both orders give
the key "a:a:a". -/
theorem c5_route_key_symmetry_counterexample :
    normalize_route_key "a" "a:a" = normalize_route_key "a:a" "a" ∧
      routeEndpoint "a" ≠ routeEndpoint "a:a" := by
  constructor
  · rfl
  · decide

/-- C5 (amended): `normalize_route_key(a, b)` is the lower-cased,
whitespace-trimmed form of a, a ":", and the lower-cased,
whitespace-trimmed form of b; and whenever the normalized forms differ
and neither contains a ":" (true of city names), the key is
direction-sensitive: the two argument orders give different keys. -/
theorem c5_route_key_shape_and_asymmetry :
    (∀ a b : String, (normalize_route_key a b).data =
        pyLowerL (pyStripL a.data) ++ ':' :: pyLowerL (pyStripL b.data)) ∧
      ∀ a b : String, routeEndpoint a ≠ routeEndpoint b →
        (∀ c ∈ routeEndpoint a, c ≠ ':') → (∀ c ∈ routeEndpoint b, c ≠ ':') →
        normalize_route_key a b ≠ normalize_route_key b a := by
  constructor
  · intro a b
    rw [← routeEndpoint_eq, ← routeEndpoint_eq]
    rfl
  · intro a b hne hca hcb heq
    apply hne
    have hdata : routeEndpoint a ++ ':' :: routeEndpoint b =
        routeEndpoint b ++ ':' :: routeEndpoint a :=
      congrArg String.data heq
    exact sep_glue_inj hca hcb hdata

/-- C5 witness: the amended asymmetry at the spec's own example pair
("Уфа", "Казань"). -/
theorem c5_route_key_witness :
    normalize_route_key "Уфа" "Казань" ≠ normalize_route_key "Казань" "Уфа" :=
  c5_route_key_shape_and_asymmetry.2 "Уфа" "Казань" (by decide) (by decide)
    (by decide)

/-! ## Claim C6 — price rule order, bounds, examples -/

/-- One fall-through step agrees with taking the first in-range
candidate of the remaining rule list. -/
theorem priceStep_cons (c : Option Nat) (cs : List (Option Nat)) :
    priceStep c (firstValidCandidate cs) = firstValidCandidate (c :: cs) := by
  cases c <;> rfl

/-- Every result of the first-valid-candidate selection is in range. -/
theorem firstValidCandidate_range : ∀ {cs : List (Option Nat)} {p : Nat},
    firstValidCandidate cs = some p → 500 ≤ p ∧ p ≤ 500000 := by
  intro cs
  induction cs with
  | nil => intro p h; simp [firstValidCandidate] at h
  | cons c cs ih =>
      intro p h
      cases c with
      | none => exact ih (by simpa [firstValidCandidate] using h)
      | some q =>
          cases hq : inPriceRange q with
          | true =>
              have hqp : q = p := by
                simpa [firstValidCandidate, hq] using h
              subst hqp
              simpa [inPriceRange] using hq
          | false => exact ih (by simpa [firstValidCandidate, hq] using h)

/-- C6: `extract_price_from_text` tries the comma-grouped rule, the
direct currency-suffixed amount, the "N к/тыс" shorthand, and the bare
standalone number, in that fixed order; the first rule whose candidate
lies in [500, 500000] determines the result, every non-None result lies
in that range, and the spec's examples "15к" ↦ 15000 and
"3500 руб" ↦ 3500 hold. -/
theorem c6_price_rules_order_and_range :
    (∀ t : String, ∀ p : Nat, extract_price_from_text t = some p →
        500 ≤ p ∧ p ≤ 500000) ∧
      (∀ t : String, extract_price_from_text t =
        firstValidCandidate [searchComma (cleanPriceText t.data),
          searchExact (cleanPriceText t.data),
          searchThousands (cleanPriceText t.data),
          searchStandalone (cleanPriceText t.data)]) ∧
      extract_price_from_text "15к" = some 15000 ∧
      extract_price_from_text "3500 руб" = some 3500 := by
  have hstruct : ∀ l : List Char, priceRules l =
      firstValidCandidate [searchComma l, searchExact l, searchThousands l,
        searchStandalone l] := by
    intro l
    conv_rhs => rw [← priceStep_cons, ← priceStep_cons, ← priceStep_cons,
      ← priceStep_cons]
    rfl
  refine ⟨?_, ?_, ?_, ?_⟩
  · intro t p h
    have h2 : firstValidCandidate [searchComma (cleanPriceText t.data),
        searchExact (cleanPriceText t.data),
        searchThousands (cleanPriceText t.data),
        searchStandalone (cleanPriceText t.data)] = some p := by
      rw [← hstruct]; exact h
    exact firstValidCandidate_range h2
  · intro t; exact hstruct (cleanPriceText t.data)
  · rfl
  · rfl

/-- C6 witness: the range conclusion instantiated at "15к". -/
theorem c6_price_rules_witness : 500 ≤ 15000 ∧ 15000 ≤ 500000 :=
  c6_price_rules_order_and_range.1 "15к" 15000 rfl

/-! ## Claim C10 — dates, clock times and phone numbers never feed the
price rules -/

/-- C10: the price rules only ever see the text with all date, clock
time and phone-number substrings deleted (in that order), so messages
whose only digit runs are a phone number, a date or a time yield no
price. -/
theorem c10_price_cleaning :
    (∀ t : String, extract_price_from_text t =
        priceRules (subAll (matchLen matchPhoneAt)
          (subAll (matchLen matchTimeAt)
            (subAll (matchLen matchDateAt) t.data)))) ∧
      extract_price_from_text "позвони 8 912 345-67-89" = none ∧
      extract_price_from_text "8(912)345-67-89 поехали" = none ∧
      extract_price_from_text "выезд 25.12.2024" = none ∧
      extract_price_from_text "встреча в 15:30" = none :=
  ⟨fun _ => rfl, rfl, rfl, rfl, rfl⟩

/-! ## Claim C7 — city-name validation -/

/-- C7 counterexample: the claim's validity rule and the code disagree
on a geocodable candidate that starts with a digit without being purely
numeric — "1абв" satisfies every condition the claim lists (≥3 chars,
not purely numeric, not stoplisted, geocodable), yet the code rejects
it at its leading-digit check. -/
theorem c7_city_validation_counterexample :
    spec_city_valid [] [] [] (fun _ => some (0, 0)) "1абв" = true ∧
      is_valid_city_name [] [] [] (fun _ => some (0, 0)) "1абв" = false := by
  constructor
  · rfl
  · rfl

/-- C7 (amended): a candidate is accepted iff it is at least 3
characters long, not purely numeric, not starting with a digit, not a
signed (possibly decimal) number, not in the stoplist, and either in
the known-city dictionary, the alias table, the declension table, or
independently geocodable; and the stoplist word "Трансфер" is rejected
for every dictionary and every geocoder. -/
theorem c7_city_validation :
    (∀ (known aliases declensions : List String)
        (geocode : String → Option (ℚ × ℚ)) (name : String),
      is_valid_city_name known aliases declensions geocode name = true ↔
        (3 ≤ (pyStripL (pyLowerL name.data)).length ∧
          NOT_CITIES.contains (String.mk (pyStripL (pyLowerL name.data))) = false ∧
          pyIsDigitStr (pyStripL (pyLowerL name.data)) = false ∧
          (match pyStripL (pyLowerL name.data) with
            | c :: _ => c.isDigit
            | [] => false) = false ∧
          numberLike (pyStripL (pyLowerL name.data)) = false ∧
          ((known.map (fun c => String.mk (pyLowerL c.data))).contains
              (String.mk (pyStripL (pyLowerL name.data))) = true ∨
            aliases.contains (String.mk (pyStripL (pyLowerL name.data))) = true ∨
            declensions.contains (String.mk (pyStripL (pyLowerL name.data))) = true ∨
            (geocode name).isSome = true))) ∧
      ∀ (known aliases declensions : List String)
        (geocode : String → Option (ℚ × ℚ)),
        is_valid_city_name known aliases declensions geocode "Трансфер" = false := by
  constructor
  · intro known aliases declensions geocode name
    unfold is_valid_city_name
    by_cases hn : name = ""
    · subst hn
      simp [pyStripL, pyLowerL]
    · simp only [if_neg hn]
      split_ifs with h1 h2 h3 h4 h5 h6 h7 h8 <;> simp_all
  · intro known aliases declensions geocode
    rfl

/-! ## Claims C3 and C4 — geographic and price filters -/

/-- A driver with truthy coordinates and a truthy radius who passes the
price filter produces exactly the `driver_info` entry when the distance
is within the radius. -/
theorem matchOne_eq_some (dist : ℚ × ℚ → ℚ × ℚ → ℚ) (pa : ℚ × ℚ)
    (price : Option Int) (d : Driver) (la lo r : ℚ)
    (hla : d.latitude = some la) (hla0 : la ≠ 0)
    (hlo : d.longitude = some lo) (hlo0 : lo ≠ 0)
    (hr : d.radius_km = some r) (hr0 : r ≠ 0)
    (hprice : priceExcluded price d.min_price = false)
    (hgeo : dist (la, lo) pa ≤ r) :
    matchOne dist pa price d = some (driverInfo d (pyRound1 (dist (la, lo) pa))) := by
  unfold matchOne
  simp [pyTruthyRat, hla, hlo, hla0, hlo0, is_within_radius, effRadius, hr,
    hr0, hprice, hgeo]

/-- A driver was skipped by the geographic filter when and only when the
loop produced no entry, given passing coordinates and price; inversion
of one loop iteration. -/
theorem matchOne_some_inv {dist : ℚ × ℚ → ℚ × ℚ → ℚ} {pa : ℚ × ℚ}
    {price : Option Int} {x : Driver} {i : MatchInfo}
    (h : matchOne dist pa price x = some i) :
    pyTruthyRat x.latitude = true ∧ pyTruthyRat x.longitude = true ∧
      dist (x.latitude.getD 0, x.longitude.getD 0) pa ≤ effRadius x.radius_km ∧
      priceExcluded price x.min_price = false ∧
      i = driverInfo x
        (pyRound1 (dist (x.latitude.getD 0, x.longitude.getD 0) pa)) := by
  unfold matchOne at h
  cases h1 : (pyTruthyRat x.latitude && pyTruthyRat x.longitude) with
  | false => simp [h1] at h
  | true =>
      cases h2 : is_within_radius dist (x.latitude.getD 0, x.longitude.getD 0)
          pa (effRadius x.radius_km) with
      | false => simp [h1, h2] at h
      | true =>
          cases h3 : priceExcluded price x.min_price with
          | true => simp [h1, h2, h3] at h
          | false =>
              simp only [h1, h2, h3, Bool.not_true, Bool.false_eq_true,
                if_false, if_true, Bool.true_eq_false] at h
              obtain ⟨hA, hB⟩ := (Bool.and_eq_true _ _).mp h1
              refine ⟨hA, hB, ?_, rfl, ?_⟩
              · simpa [is_within_radius] using h2
              · exact (Option.some.injEq _ _).mp h |>.symm

/-- C3: an order without point-A coordinates matches no drivers, and a
candidate with known (truthy) coordinates, a set positive radius and a
passing price filter appears in the match list iff its distance to the
order's point A is at most its radius — the boundary is inclusive. -/
theorem c3_unmatchable_and_radius_boundary :
    ∀ (dist : ℚ × ℚ → ℚ × ℚ → ℚ) (active : List Driver)
      (subs : Int → List Driver) (fg : Bool),
      (∀ order : MatchOrder, order.point_a_coords = none →
        find_matching_drivers dist active subs order fg = []) ∧
      ∀ (order : MatchOrder) (pa : ℚ × ℚ) (d : Driver) (la lo r : ℚ),
        order.point_a_coords = some pa →
        d ∈ selectDrivers active subs order fg →
        d.latitude = some la → la ≠ 0 → d.longitude = some lo → lo ≠ 0 →
        d.radius_km = some r → r ≠ 0 →
        priceExcluded order.price d.min_price = false →
        (driverInfo d (pyRound1 (dist (la, lo) pa)) ∈
            find_matching_drivers dist active subs order fg ↔
          dist (la, lo) pa ≤ r) := by
  intro dist active subs fg
  constructor
  · intro order h
    unfold find_matching_drivers
    rw [h]
  · intro order pa d la lo r hpa hmem hla hla0 hlo hlo0 hr hr0 hprice
    unfold find_matching_drivers
    rw [hpa]
    rw [List.mem_mergeSort, List.mem_filterMap]
    constructor
    · rintro ⟨x, hxmem, hx⟩
      obtain ⟨hxa, hxb, hxgeo, hxprice, hxi⟩ := matchOne_some_inv hx
      have hfields := hxi
      simp only [driverInfo, MatchInfo.mk.injEq] at hfields
      obtain ⟨-, -, -, -, -, hlat, hlon, hrad, -, -⟩ := hfields
      rw [← hlat, ← hlon, ← hrad] at hxgeo
      rw [hla, hlo, hr] at hxgeo
      simpa [effRadius, hr0] using hxgeo
    · intro hgeo
      exact ⟨d, hmem, matchOne_eq_some dist pa order.price d la lo r hla hla0
        hlo hlo0 hr hr0 hprice hgeo⟩

/-- C3 witness: a one-driver roster at constant distance 1 with radius
5; the unmatchable conclusion and the boundary equivalence both
instantiate. -/
theorem c3_witness :
    (find_matching_drivers (fun _ _ => 1)
        [⟨1, 100, none, none, some 2, some 3, some 5, none⟩] (fun _ => [])
        ⟨none, none, none, ""⟩ true = []) ∧
      ((driverInfo ⟨1, 100, none, none, some 2, some 3, some 5, none⟩
          (pyRound1 ((fun (_ _ : ℚ × ℚ) => (1 : ℚ)) (2, 3) (0, 0))) ∈
            find_matching_drivers (fun _ _ => 1)
              [⟨1, 100, none, none, some 2, some 3, some 5, none⟩]
              (fun _ => []) ⟨some (0, 0), none, none, ""⟩ true) ↔
        (1 : ℚ) ≤ 5) := by
  constructor
  · exact (c3_unmatchable_and_radius_boundary (fun _ _ => 1)
      [⟨1, 100, none, none, some 2, some 3, some 5, none⟩] (fun _ => []) true).1
      ⟨none, none, none, ""⟩ rfl
  · exact (c3_unmatchable_and_radius_boundary (fun _ _ => 1)
      [⟨1, 100, none, none, some 2, some 3, some 5, none⟩] (fun _ => []) true).2
      ⟨some (0, 0), none, none, ""⟩ (0, 0)
      ⟨1, 100, none, none, some 2, some 3, some 5, none⟩ 2 3 5 rfl
      (by simp [selectDrivers, pyTruthyInt]) rfl (by norm_num) rfl (by norm_num)
      rfl (by norm_num) rfl

/-- The price rejection holds exactly when the order's price is set and
undercuts a positive effective floor, for prices in the extractor's
plausible range. -/
theorem priceExcluded_iff {price minp : Option Int}
    (hp : ∀ p, price = some p → 500 ≤ p) :
    priceExcluded price minp = true ↔
      ∃ p, price = some p ∧ 0 < effMinPrice minp ∧ p < effMinPrice minp := by
  cases price with
  | none => simp [priceExcluded]
  | some p =>
      have h500 : (500 : Int) ≤ p := hp p rfl
      have hp0 : p ≠ 0 := by omega
      simp [priceExcluded, hp0]

/-- C4: given passing coordinates and radius, a candidate is excluded
iff the order's price is set, the driver's effective price floor is
positive, and the price is strictly below the floor. -/
theorem c4_price_floor :
    ∀ (dist : ℚ × ℚ → ℚ × ℚ → ℚ) (d : Driver) (order : MatchOrder)
      (pa : ℚ × ℚ) (la lo : ℚ),
      order.point_a_coords = some pa →
      d.latitude = some la → la ≠ 0 → d.longitude = some lo → lo ≠ 0 →
      dist (la, lo) pa ≤ effRadius d.radius_km →
      (∀ p, order.price = some p → 500 ≤ p) →
      (check_driver_matches_order dist d order = none ↔
        ∃ p, order.price = some p ∧ 0 < effMinPrice d.min_price ∧
          p < effMinPrice d.min_price) := by
  intro dist d order pa la lo hpa hla hla0 hlo hlo0 hgeo hp
  unfold check_driver_matches_order
  rw [hpa, ← priceExcluded_iff hp]
  simp only [pyTruthyRat, hla, hlo, Option.getD_some]
  cases h : priceExcluded order.price d.min_price <;>
    simp [hla0, hlo0, is_within_radius, hgeo, h]

/-- C4 witness: price 999 against floor 1000 at constant distance 3 and
radius 50 — the exclusion equivalence instantiates. -/
theorem c4_price_floor_witness :
    check_driver_matches_order (fun _ _ => 3)
        ⟨1, 1, none, none, some 1, some 1, some 50, some 1000⟩
        ⟨some (0, 0), some 999, none, ""⟩ = none ↔
      ∃ p, (⟨some (0, 0), some 999, none, ""⟩ : MatchOrder).price = some p ∧
        0 < effMinPrice (some 1000) ∧ p < effMinPrice (some 1000) :=
  c4_price_floor (fun _ _ => 3)
    ⟨1, 1, none, none, some 1, some 1, some 50, some 1000⟩
    ⟨some (0, 0), some 999, none, ""⟩ (0, 0) 1 1 rfl rfl (by norm_num) rfl
    (by norm_num) (by norm_num [effRadius]) (by intro p hp; cases hp; omega)

/-! ## Claim C2 — idempotent group-link insert -/

/-- The freshly inserted row satisfies its own triple filter. -/
theorem tripleMatch_new (rk : String) (u : Int) (gid : Option Int)
    (gt sl : String) (mid aid : Option Int) (aun afn : Option String) :
    tripleMatch rk u sl
      { route_key := rk, user_id := u, group_id := gid, group_title := gt,
        source_link := sl, message_id := mid, author_id := aid,
        author_username := aun, author_first_name := afn } = true := by
  simp [tripleMatch]

/-- With no stored row of the triple, one call appends exactly one. -/
theorem add_link_fresh {db : DB} {rk : String} {u : Int} {gid : Option Int}
    {gt sl : String} {mid aid : Option Int} {aun afn : Option String}
    (h : tripleCount db rk u sl = 0) :
    ((add_order_group_link db rk u gid gt sl mid aid aun afn).2).group_links =
      db.group_links ++
        [{ route_key := rk, user_id := u, group_id := gid, group_title := gt,
           source_link := sl, message_id := mid, author_id := aid,
           author_username := aun, author_first_name := afn }] := by
  have hnone : db.group_links.find? (tripleMatch rk u sl) = none := by
    rw [List.find?_eq_none]
    intro x hx
    have := (List.countP_eq_zero.mp h) x hx
    simpa using this
  unfold add_order_group_link
  rw [hnone]

/-- With a stored row of the triple, the call returns the first stored
row and leaves the store untouched. -/
theorem add_link_existing {db : DB} {rk : String} {u : Int} {gid : Option Int}
    {gt sl : String} {mid aid : Option Int} {aun afn : Option String}
    (h : 1 ≤ tripleCount db rk u sl) :
    (add_order_group_link db rk u gid gt sl mid aid aun afn).2 = db ∧
      ∃ l, (add_order_group_link db rk u gid gt sl mid aid aun afn).1 = some l ∧
        l ∈ db.group_links ∧ tripleMatch rk u sl l = true := by
  have hsome : (db.group_links.find? (tripleMatch rk u sl)).isSome := by
    rw [List.find?_isSome]
    by_contra hc
    push_neg at hc
    have : tripleCount db rk u sl = 0 := by
      rw [tripleCount, List.countP_eq_zero]
      intro a ha
      exact fun hp => hc a ha hp
    omega
  obtain ⟨l, hl⟩ := Option.isSome_iff_exists.mp hsome
  unfold add_order_group_link
  rw [hl]
  exact ⟨rfl, l, rfl, List.mem_of_find?_eq_some hl, List.find?_some hl⟩

/-- Calls on a store holding the triple do not change the count. -/
theorem tripleCount_preserved {db : DB} {rk : String} {u : Int}
    {gid : Option Int} {gt sl : String} {mid aid : Option Int}
    {aun afn : Option String} (h : 1 ≤ tripleCount db rk u sl) :
    tripleCount ((add_order_group_link db rk u gid gt sl mid aid aun afn).2)
      rk u sl = tripleCount db rk u sl := by
  rw [(@add_link_existing db rk u gid gt sl mid aid aun afn h).1]

/-- C2: inserting a group link is idempotent — starting from a store
with no row of the (route_key, user, source_link) triple, any positive
number of identical calls leaves exactly one stored row; every call on a
store already holding the triple returns a stored row of the triple and
changes nothing; and the store is append-only (no existing row is ever
modified or removed). -/
theorem c2_group_link_idempotent :
    ∀ (rk : String) (u : Int) (gid : Option Int) (gt sl : String)
      (mid aid : Option Int) (aun afn : Option String),
      (∀ db : DB, ∃ tail,
        ((add_order_group_link db rk u gid gt sl mid aid aun afn).2).group_links =
          db.group_links ++ tail) ∧
      (∀ db : DB, tripleCount db rk u sl = 0 → ∀ k : Nat,
        tripleCount
          (iterN (fun d => (add_order_group_link d rk u gid gt sl mid aid aun afn).2)
            (k + 1) db) rk u sl = 1) ∧
      (∀ db : DB, 1 ≤ tripleCount db rk u sl →
        (add_order_group_link db rk u gid gt sl mid aid aun afn).2 = db ∧
        ∃ l, (add_order_group_link db rk u gid gt sl mid aid aun afn).1 = some l ∧
          l ∈ db.group_links ∧ tripleMatch rk u sl l = true) := by
  intro rk u gid gt sl mid aid aun afn
  refine ⟨?_, ?_, ?_⟩
  · intro db
    unfold add_order_group_link
    cases h : db.group_links.find? (tripleMatch rk u sl) with
    | none => exact ⟨_, rfl⟩
    | some l => exact ⟨[], (List.append_nil _).symm⟩
  · intro db h0 k
    have hone : tripleCount
        ((add_order_group_link db rk u gid gt sl mid aid aun afn).2) rk u sl = 1 := by
      rw [tripleCount, add_link_fresh h0, List.countP_append]
      have : tripleCount db rk u sl = 0 := h0
      rw [tripleCount] at this
      simp [this, tripleMatch_new]
    induction k with
    | zero => simpa [iterN] using hone
    | succ j ih =>
        have hstep : ∀ d : DB, tripleCount d rk u sl = 1 →
            tripleCount ((add_order_group_link d rk u gid gt sl mid aid aun afn).2)
              rk u sl = 1 := by
          intro d hd
          rw [tripleCount_preserved (by omega), hd]
        clear ih
        have : ∀ (j : Nat) (d : DB), tripleCount d rk u sl = 1 →
            tripleCount
              (iterN (fun e => (add_order_group_link e rk u gid gt sl mid aid aun afn).2)
                j d) rk u sl = 1 := by
          intro j
          induction j with
          | zero => intro d hd; simpa [iterN] using hd
          | succ i ihj =>
              intro d hd
              have := hstep d hd
              simpa [iterN] using ihj _ this
        simpa [iterN] using this (j + 1) _ hone
  · intro db h
    exact add_link_existing h

/-- C2 witness: two identical inserts into an empty store leave exactly
one row, and a third call on the resulting store is a no-op returning a
stored row. -/
theorem c2_group_link_witness :
    (∃ tail, ((add_order_group_link ⟨[], [], [], []⟩ "уфа:казань" 1 (some 5) "G"
        "t.me/g/1" none none none none).2).group_links =
      (⟨[], [], [], []⟩ : DB).group_links ++ tail) ∧
      tripleCount
        (iterN (fun d => (add_order_group_link d "уфа:казань" 1 (some 5) "G"
          "t.me/g/1" none none none none).2) 2 ⟨[], [], [], []⟩)
        "уфа:казань" 1 "t.me/g/1" = 1 ∧
      (add_order_group_link
          ⟨[], [⟨"уфа:казань", 1, some 5, "G", "t.me/g/1", none, none, none, none⟩],
            [], []⟩ "уфа:казань" 1 (some 5) "G" "t.me/g/1" none none none
          none).2 =
        ⟨[], [⟨"уфа:казань", 1, some 5, "G", "t.me/g/1", none, none, none, none⟩],
          [], []⟩ := by
  refine ⟨?_, ?_, ?_⟩
  · exact (c2_group_link_idempotent "уфа:казань" 1 (some 5) "G" "t.me/g/1"
      none none none none).1 ⟨[], [], [], []⟩
  · exact (c2_group_link_idempotent "уфа:казань" 1 (some 5) "G" "t.me/g/1"
      none none none none).2.1 ⟨[], [], [], []⟩ rfl 1
  · exact ((c2_group_link_idempotent "уфа:казань" 1 (some 5) "G" "t.me/g/1"
      none none none none).2.2
      ⟨[], [⟨"уфа:казань", 1, some 5, "G", "t.me/g/1", none, none, none, none⟩],
        [], []⟩ (by decide)).1

/-! ## Claim C9 — suppression performs no delivery and writes nothing -/

/-- The busy check can only touch driver settings (clearing an expired
busy flag); notifications, group links and the blacklist are unchanged. -/
theorem is_user_busy_preserves (db : DB) (u now : Int) :
    ((is_user_busy db u now).2).notifications = db.notifications ∧
      ((is_user_busy db u now).2).group_links = db.group_links ∧
      ((is_user_busy db u now).2).blacklist = db.blacklist := by
  unfold is_user_busy
  cases h : db.settings.find? (fun s => s.user_id == u) with
  | none => exact ⟨rfl, rfl, rfl⟩
  | some s =>
      cases hb : s.busy_until with
      | none => simp [hb]
      | some b => by_cases hn : now < b <;> simp [hb, hn]

/-- The blacklist check only reads the blacklist table. -/
theorem is_blacklisted_congr {db1 db2 : DB}
    (h : db1.blacklist = db2.blacklist) (u : Int) (a g : Option Int) :
    is_blacklisted db1 u a g = is_blacklisted db2 u a g := by
  unfold is_blacklisted
  rw [h]

/-- C9: when the driver is in quiet hours, busy until a future time, or
has the order's author or source group blacklisted, `_notify_driver`
performs no send and no edit and writes no notification record and no
group-link row. -/
theorem c9_suppression_frame :
    ∀ (db : DB) (hasEdit editOk hasSend : Bool) (sendResult : Option Int)
      (u : Int) (o : NotifyOrder) (oid : Int) (rk : String)
      (gid : Option Int) (nowHM : String) (now : Int),
      (is_user_in_quiet_hours db u nowHM = true ∨
        (is_user_busy db u now).1 = true ∨
        is_blacklisted db u o.author_id gid = true) →
      (notify_driver db hasEdit editOk hasSend sendResult u o oid rk gid
          nowHM now).2 = [] ∧
        (notify_driver db hasEdit editOk hasSend sendResult u o oid rk gid
            nowHM now).1.notifications = db.notifications ∧
        (notify_driver db hasEdit editOk hasSend sendResult u o oid rk gid
            nowHM now).1.group_links = db.group_links := by
  intro db hasEdit editOk hasSend sendResult u o oid rk gid nowHM now h
  obtain ⟨hN, hG, hB⟩ := is_user_busy_preserves db u now
  by_cases hq : is_user_in_quiet_hours db u nowHM = true
  · unfold notify_driver
    simp [hq]
  · by_cases hb : (is_user_busy db u now).1 = true
    · unfold notify_driver
      simp [hq, hb, hN, hG]
    · have hbl : is_blacklisted db u o.author_id gid = true := by tauto
      have hbl2 : is_blacklisted (is_user_busy db u now).2 u o.author_id gid = true := by
        rw [is_blacklisted_congr hB]
        exact hbl
      unfold notify_driver
      simp [hq, hb, hbl2, hN, hG]

/-- C9 witness: a driver whose wraparound quiet-hours window covers the
current clock time is suppressed with no store change. -/
theorem c9_suppression_witness :
    (notify_driver ⟨[], [], [⟨7, true, "22:00", "08:00", none⟩], []⟩ true true
        true (some 9) 7 ⟨"t.me/g/2", none, none, none, none, none⟩ 3 "уфа:казань"
        (some 5) "23:15" 1000).2 = [] ∧
      (notify_driver ⟨[], [], [⟨7, true, "22:00", "08:00", none⟩], []⟩ true true
          true (some 9) 7 ⟨"t.me/g/2", none, none, none, none, none⟩ 3
          "уфа:казань" (some 5) "23:15" 1000).1.notifications =
        (⟨[], [], [⟨7, true, "22:00", "08:00", none⟩], []⟩ : DB).notifications ∧
      (notify_driver ⟨[], [], [⟨7, true, "22:00", "08:00", none⟩], []⟩ true true
          true (some 9) 7 ⟨"t.me/g/2", none, none, none, none, none⟩ 3
          "уфа:казань" (some 5) "23:15" 1000).1.group_links =
        (⟨[], [], [⟨7, true, "22:00", "08:00", none⟩], []⟩ : DB).group_links :=
  c9_suppression_frame ⟨[], [], [⟨7, true, "22:00", "08:00", none⟩], []⟩ true
    true true (some 9) 7 ⟨"t.me/g/2", none, none, none, none, none⟩ 3
    "уфа:казань" (some 5) "23:15" 1000 (Or.inl (by decide))

/-! ## Claim C1 — edit within the 2-hour window, send after it -/

/-- Adding a group link never touches the notification table. -/
theorem add_link_preserves_notifications (db : DB) (rk : String) (u : Int)
    (gid : Option Int) (gt sl : String) (mid aid : Option Int)
    (aun afn : Option String) :
    ((add_order_group_link db rk u gid gt sl mid aid aun afn).2).notifications =
      db.notifications := by
  unfold add_order_group_link
  cases h : db.group_links.find? (tripleMatch rk u sl) with
  | none => rfl
  | some l => rfl

/-- The notification lookup reads only the notification table. -/
theorem get_existing_congr {db1 db2 : DB}
    (h : db1.notifications = db2.notifications) (u : Int) (rk : String)
    (hrs now : Int) :
    get_existing_notification db1 u rk hrs now =
      get_existing_notification db2 u rk hrs now := by
  unfold get_existing_notification
  rw [h]

/-- The latest-row selection is empty exactly on the empty row list. -/
theorem latestNotif_eq_none_iff {l : List NotifRecord} :
    latestNotif l = none ↔ l = [] := by
  cases l with
  | nil => simp [latestNotif]
  | cons n rest =>
      constructor
      · intro h
        exfalso
        unfold latestNotif at h
        cases hr : latestNotif rest with
        | none => rw [hr] at h; exact Option.noConfusion h
        | some m =>
            rw [hr] at h
            by_cases hc : m.sent_at > n.sent_at <;> simp [hc] at h
      · intro h
        exact absurd h (List.cons_ne_nil n rest)

/-- The latest-row selection returns a member of the row list. -/
theorem latestNotif_mem : ∀ {l : List NotifRecord} {n : NotifRecord},
    latestNotif l = some n → n ∈ l := by
  intro l
  induction l with
  | nil => intro n h; simp [latestNotif] at h
  | cons a rest ih =>
      intro n h
      unfold latestNotif at h
      cases hr : latestNotif rest with
      | none =>
          rw [hr] at h
          obtain rfl := Option.some.inj h
          exact List.mem_cons_self a rest
      | some m =>
          rw [hr] at h
          change (if m.sent_at > a.sent_at then some m else some a) = some n at h
          by_cases hc : m.sent_at > a.sent_at
          · rw [if_pos hc] at h
            obtain rfl := Option.some.inj h
            exact List.mem_cons_of_mem a (ih hr)
          · rw [if_neg hc] at h
            obtain rfl := Option.some.inj h
            exact List.mem_cons_self a rest

/-- No fresh row, no lookup result. -/
theorem get_existing_eq_none_iff {db : DB} {u : Int} {rk : String}
    {hrs now : Int} :
    get_existing_notification db u rk hrs now = none ↔
      ∀ m ∈ db.notifications, freshNotif u rk hrs now m = false := by
  unfold get_existing_notification
  rw [latestNotif_eq_none_iff, List.filter_eq_nil_iff]
  simp

/-- A row strictly older than the 2-hour cutoff fails the freshness
filter (as do rows of other users, routes, or without a handle). -/
theorem freshNotif_false_of_stale {u : Int} {rk : String} {now : Int}
    {m : NotifRecord}
    (h : m.user_id = u → m.route_key = rk → m.message_id.isSome = true →
      m.sent_at < now - 7200) :
    freshNotif u rk 2 now m = false := by
  unfold freshNotif
  by_cases h1 : m.user_id = u
  · by_cases h2 : m.route_key = rk
    · by_cases h3 : m.message_id.isSome = true
      · have hs := h h1 h2 h3
        simp only [h1, h2, h3, beq_self_eq_true, Bool.true_and,
          Bool.and_eq_false_iff, decide_eq_false_iff_not]
        omega
      · simp [h3]
    · simp [beq_iff_eq, h2]
  · simp [beq_iff_eq, h1]

/-- The edit path of the post-check body: with a fresh record holding a
truthy handle and a working edit callback, the only delivery action is
an edit of that handle and the notification table is untouched. -/
theorem notifyAfterChecks_edit {db : DB} {hS : Bool} {sr : Option Int}
    {u : Int} {o : NotifyOrder} {oid : Int} {rk : String} {gid : Option Int}
    {now : Int} {n : NotifRecord} {mid : Int}
    (hfresh : get_existing_notification db u rk 2 now = some n)
    (hmid : n.message_id = some mid) (hmid0 : mid ≠ 0) :
    (notifyAfterChecks db true true hS sr u o oid rk gid now).2 =
        [Effect.editMsg mid] ∧
      (notifyAfterChecks db true true hS sr u o oid rk gid now).1.notifications =
        db.notifications := by
  have htr : pyTruthyInt n.message_id = true := by
    simp [pyTruthyInt, hmid, hmid0]
  by_cases ha : (get_order_group_links db rk u).any
      (fun l => l.source_link == o.source_link) = true
  · constructor <;>
      simp [notifyAfterChecks, hfresh, htr, hmid, ha, pyTruthyInt, hmid0]
  · constructor <;>
      simp [notifyAfterChecks, hfresh, htr, hmid, ha, pyTruthyInt, hmid0,
        add_link_preserves_notifications]

/-- The send path of the post-check body: with no fresh record, a
working send callback returning a truthy handle sends one message and
appends one notification record holding that handle. -/
theorem notifyAfterChecks_send {db : DB} {hE eO : Bool} {u : Int}
    {o : NotifyOrder} {oid : Int} {rk : String} {gid : Option Int}
    {now : Int} {sid : Int}
    (hnone : get_existing_notification db u rk 2 now = none) (hsid : sid ≠ 0) :
    (notifyAfterChecks db hE eO true (some sid) u o oid rk gid now).2 =
        [Effect.sendMsg (some sid)] ∧
      (notifyAfterChecks db hE eO true (some sid) u o oid rk gid
          now).1.notifications =
        db.notifications ++
          [{ order_id := oid, user_id := u, message_id := some sid,
             route_key := rk, sent_at := now }] := by
  constructor <;>
    simp [notifyAfterChecks, hnone, notifySendBranch, hsid,
      save_order_notification, add_link_preserves_notifications]

/-- Past the suppression checks, `_notify_driver` is its post-check
body on the (possibly busy-cleared) store. -/
theorem notify_driver_passes {db : DB} {hE eO hS : Bool} {sr : Option Int}
    {u : Int} {o : NotifyOrder} {oid : Int} {rk : String} {gid : Option Int}
    {nowHM : String} {now : Int}
    (hq : is_user_in_quiet_hours db u nowHM = false)
    (hb : (is_user_busy db u now).1 = false)
    (hbl : is_blacklisted db u o.author_id gid = false) :
    notify_driver db hE eO hS sr u o oid rk gid nowHM now =
      notifyAfterChecks (is_user_busy db u now).2 hE eO hS sr u o oid rk gid
        now := by
  obtain ⟨hN, hG, hB⟩ := is_user_busy_preserves db u now
  have hbl2 : is_blacklisted (is_user_busy db u now).2 u o.author_id gid = false := by
    rw [is_blacklisted_congr hB]
    exact hbl
  unfold notify_driver
  simp [hq, hb, hbl2]

/-- C1: for an unsuppressed driver with an edit-capable bot, a fresh
notification record (same driver and route key, truthy handle, sent
within the last 2 hours) makes a new posting of the route edit that very
handle and store no new notification record; with only stale records
(e.g. 3 hours old), a working send stores a brand-new record holding the
newly returned handle. -/
theorem c1_freshness_window :
    ∀ (dbE dbS : DB) (hE eO hasSend : Bool) (sendResult : Option Int)
      (u : Int) (o : NotifyOrder) (oid : Int) (rk : String)
      (gid : Option Int) (nowHM : String) (now : Int) (n : NotifRecord)
      (mid sid : Int),
      is_user_in_quiet_hours dbE u nowHM = false →
      (is_user_busy dbE u now).1 = false →
      is_blacklisted dbE u o.author_id gid = false →
      get_existing_notification dbE u rk 2 now = some n →
      n.message_id = some mid → mid ≠ 0 →
      is_user_in_quiet_hours dbS u nowHM = false →
      (is_user_busy dbS u now).1 = false →
      is_blacklisted dbS u o.author_id gid = false →
      (∀ m ∈ dbS.notifications, m.user_id = u → m.route_key = rk →
        m.message_id.isSome = true → m.sent_at < now - 7200) →
      sid ≠ 0 →
      ((notify_driver dbE true true hasSend sendResult u o oid rk gid nowHM
            now).2 = [Effect.editMsg mid] ∧
        (notify_driver dbE true true hasSend sendResult u o oid rk gid nowHM
            now).1.notifications = dbE.notifications) ∧
      ((notify_driver dbS hE eO true (some sid) u o oid rk gid nowHM now).2 =
          [Effect.sendMsg (some sid)] ∧
        (notify_driver dbS hE eO true (some sid) u o oid rk gid nowHM
            now).1.notifications =
          dbS.notifications ++
            [{ order_id := oid, user_id := u, message_id := some sid,
               route_key := rk, sent_at := now }]) := by
  intro dbE dbS hE eO hasSend sendResult u o oid rk gid nowHM now n mid sid
  intro hqE hbE hblE hfresh hmid hmid0 hqS hbS hblS hstale hsid
  constructor
  · obtain ⟨hNE, hGE, hBE⟩ := is_user_busy_preserves dbE u now
    have hfresh2 : get_existing_notification (is_user_busy dbE u now).2 u rk 2
        now = some n := by
      rw [get_existing_congr hNE]
      exact hfresh
    have hedit := @notifyAfterChecks_edit _ hasSend sendResult _ o oid _ gid
      _ _ _ hfresh2 hmid hmid0
    rw [notify_driver_passes hqE hbE hblE]
    exact ⟨hedit.1, by rw [hedit.2, hNE]⟩
  · obtain ⟨hNS, hGS, hBS⟩ := is_user_busy_preserves dbS u now
    have hnone : get_existing_notification (is_user_busy dbS u now).2 u rk 2
        now = none := by
      rw [get_existing_congr hNS]
      rw [get_existing_eq_none_iff]
      intro m hm
      exact freshNotif_false_of_stale (hstale m hm)
    have hsend := @notifyAfterChecks_send _ hE eO _ o oid _ gid _ _ hnone hsid
    rw [notify_driver_passes hqS hbS hblS]
    exact ⟨hsend.1, by rw [hsend.2, hNS]⟩

/-- C1 witness: one store holds a record sent 1 hour ago (edited in
place, nothing stored), the other only a record sent 3 hours ago (a new
message is sent and a new record with the new handle is stored). -/
theorem c1_freshness_witness :
    ((notify_driver ⟨[⟨3, 7, some 42, "уфа:казань", 6400⟩], [], [], []⟩ true
          true true (some 99) 7 ⟨"t.me/g/2", none, none, none, none, none⟩ 3
          "уфа:казань" (some 5) "12:00" 10000).2 = [Effect.editMsg 42] ∧
        (notify_driver ⟨[⟨3, 7, some 42, "уфа:казань", 6400⟩], [], [], []⟩ true
            true true (some 99) 7 ⟨"t.me/g/2", none, none, none, none, none⟩ 3
            "уфа:казань" (some 5) "12:00" 10000).1.notifications =
          (⟨[⟨3, 7, some 42, "уфа:казань", 6400⟩], [], [], []⟩ : DB).notifications) ∧
      ((notify_driver ⟨[⟨3, 7, some 42, "уфа:казань", -800⟩], [], [], []⟩ true
            true true (some 99) 7 ⟨"t.me/g/2", none, none, none, none, none⟩ 3
            "уфа:казань" (some 5) "12:00" 10000).2 =
          [Effect.sendMsg (some 99)] ∧
        (notify_driver ⟨[⟨3, 7, some 42, "уфа:казань", -800⟩], [], [], []⟩ true
            true true (some 99) 7 ⟨"t.me/g/2", none, none, none, none, none⟩ 3
            "уфа:казань" (some 5) "12:00" 10000).1.notifications =
          (⟨[⟨3, 7, some 42, "уфа:казань", -800⟩], [], [], []⟩ : DB).notifications ++
            [{ order_id := 3, user_id := 7, message_id := some 99,
               route_key := "уфа:казань", sent_at := 10000 }]) :=
  c1_freshness_window ⟨[⟨3, 7, some 42, "уфа:казань", 6400⟩], [], [], []⟩
    ⟨[⟨3, 7, some 42, "уфа:казань", -800⟩], [], [], []⟩ true true true
    (some 99) 7 ⟨"t.me/g/2", none, none, none, none, none⟩ 3 "уфа:казань"
    (some 5) "12:00" 10000 ⟨3, 7, some 42, "уфа:казань", 6400⟩ 42 99 rfl rfl
    rfl (by decide) rfl (by decide) rfl rfl rfl
    (by
      intro m hm h1 h2 h3
      simp only [List.mem_singleton] at hm
      subst hm
      decide)
    (by decide)

/-! ## Claim C8 — fleet-wide deduplication and eviction -/

/-- Bridging `List.contains` and membership for string keys. -/
theorem contains_iff_mem {l : List String} {x : String} :
    l.contains x = true ↔ x ∈ l := List.elem_iff

/-- Keys of different indices differ (their lengths differ). -/
theorem dedupKey_inj : ∀ m n : Nat, dedupKey m = dedupKey n → m = n := by
  intro m n h
  have h2 := congrArg (fun s => s.data.length) h
  simpa [dedupKey] using h2

set_option maxRecDepth 4000 in
/-- C8 counterexample: the eviction is not oldest-first.  Python's set
iteration order is unconstrained, and `List.reverse` enumerates the
same elements; under it, inserting the 10001-st key evicts the 5000
newest entries — the callback runs, the very key just inserted is gone,
and the oldest entry of all survives, contradicting "the oldest entries
are evicted". -/
theorem c8_eviction_counterexample :
    (handleOrderKey List.reverse dedupSt (dedupKey 10000)).2 = true ∧
      10000 < (dedupSt ++ [dedupKey 10000]).length ∧
      dedupKey 0 ∈ (handleOrderKey List.reverse dedupSt (dedupKey 10000)).1 ∧
      dedupKey 10000 ∉ (handleOrderKey List.reverse dedupSt (dedupKey 10000)).1 := by
  have hlenA : dedupStA.length = 5001 := by simp [dedupStA]
  have hlenB : dedupStB.length = 4999 := by simp [dedupStB]
  have hlenSt : dedupSt.length = 10000 := by
    simp [dedupSt, hlenA, hlenB]
  have hkeymem : dedupKey 10000 ∉ dedupSt := by
    intro h
    rcases List.mem_append.mp h with h | h
    · obtain ⟨n, hn, he⟩ := List.mem_map.mp h
      obtain rfl := dedupKey_inj n 10000 he
      rw [List.mem_range] at hn
      omega
    · obtain ⟨n, hn, he⟩ := List.mem_map.mp h
      obtain rfl := dedupKey_inj n 10000 he
      rw [List.mem_range'] at hn
      obtain ⟨i, hi, heq⟩ := hn
      omega
  have hcontains : dedupSt.contains (dedupKey 10000) = false := by
    rw [← Bool.not_eq_true]
    intro hc
    exact hkeymem (contains_iff_mem.mp hc)
  have hsplit : dedupSt ++ [dedupKey 10000] =
      dedupStA ++ (dedupStB ++ [dedupKey 10000]) := by
    simp [dedupSt]
  have hlen1 : 10000 < (dedupSt ++ [dedupKey 10000]).length := by
    simp [hlenSt]
  have htake : (List.reverse (dedupSt ++ [dedupKey 10000])).take 5000 =
      (dedupStB ++ [dedupKey 10000]).reverse := by
    rw [hsplit, List.reverse_append]
    have hlen2 : ((dedupStB ++ [dedupKey 10000]).reverse).length = 5000 := by
      simp [hlenB]
    rw [← hlen2]
    exact List.take_left _ _
  have hres : handleOrderKey List.reverse dedupSt (dedupKey 10000) =
      ((dedupSt ++ [dedupKey 10000]).filter
        (fun x => !((dedupStB ++ [dedupKey 10000]).reverse.contains x)), true) := by
    unfold handleOrderKey
    rw [hcontains]
    simp only [Bool.false_eq_true, if_false, if_pos hlen1, htake]
  have hres1 : (handleOrderKey List.reverse dedupSt (dedupKey 10000)).1 =
      (dedupSt ++ [dedupKey 10000]).filter
        (fun x => !((dedupStB ++ [dedupKey 10000]).reverse.contains x)) := by
    rw [hres]
  have hres2 : (handleOrderKey List.reverse dedupSt (dedupKey 10000)).2 = true := by
    rw [hres]
  have hnotold : dedupKey 0 ∉ dedupStB ++ [dedupKey 10000] := by
    intro h
    rcases List.mem_append.mp h with h | h
    · obtain ⟨n, hn, he⟩ := List.mem_map.mp h
      obtain rfl := dedupKey_inj n 0 he
      rw [List.mem_range'] at hn
      obtain ⟨i, hi, heq⟩ := hn
      omega
    · rw [List.mem_singleton] at h
      have := dedupKey_inj 0 10000 h
      omega
  have hkeyold : dedupKey 10000 ∈ dedupStB ++ [dedupKey 10000] := by simp
  have hmem0st : dedupKey 0 ∈ dedupSt ++ [dedupKey 10000] := by
    apply List.mem_append_left
    apply List.mem_append_left
    exact List.mem_map.mpr ⟨0, by rw [List.mem_range]; omega, rfl⟩
  refine ⟨hres2, hlen1, ?_, ?_⟩
  · rw [hres1]
    apply List.mem_filter.mpr
    refine ⟨hmem0st, ?_⟩
    have hnc : ¬((dedupStB ++ [dedupKey 10000]).reverse.contains (dedupKey 0) = true) :=
      fun hc => hnotold (List.mem_reverse.mp (contains_iff_mem.mp hc))
    rw [Bool.eq_false_iff.mpr hnc]
    rfl
  · rw [hres1]
    intro hmem
    have hp := (List.mem_filter.mp hmem).2
    rw [Bool.not_eq_true'] at hp
    have hc : (dedupStB ++ [dedupKey 10000]).reverse.contains (dedupKey 10000) = true :=
      contains_iff_mem.mpr (List.mem_reverse.mpr hkeyold)
    rw [hc] at hp
    exact absurd hp (by simp)

/-- Filtering an append by non-membership in its left part keeps
exactly the right part, when the whole list has no duplicates. -/
theorem filter_not_mem_left (t d : List String) (hnd : (t ++ d).Nodup) :
    (t ++ d).filter (fun x => !t.contains x) = d := by
  rw [List.filter_append]
  have hnil : t.filter (fun x => !t.contains x) = [] := by
    rw [List.filter_eq_nil_iff]
    intro a ha hp
    have hc : t.contains a = true := contains_iff_mem.mpr ha
    have hp2 : (!t.contains a) = true := hp
    rw [hc] at hp2
    exact absurd hp2 (by simp)
  have hself : d.filter (fun x => !t.contains x) = d := by
    rw [List.filter_eq_self]
    intro a ha
    rw [List.nodup_append] at hnd
    have hna : a ∉ t := fun hat => hnd.2.2 hat ha
    have hc : t.contains a = false :=
      Bool.eq_false_iff.mpr (fun hcc => hna (contains_iff_mem.mp hcc))
    show (!t.contains a) = true
    rw [hc]
    rfl
  rw [hnil, hself, List.nil_append]

/-- C8 (amended): an order whose (source-chat, message-id) key is
already in the shared recently-processed set is not forwarded to the
order callback and the set is unchanged; a new key is remembered and
forwarded, and when the insertion pushes the set past 10000 entries,
5000 entries — the first half of the set's unspecified iteration order,
not necessarily the oldest — are evicted, so the set size stays bounded
by 10000.  `enum` is the set's iteration order, constrained to
enumerate exactly the set's elements. -/
theorem c8_dedup_and_bounded :
    ∀ (enum : List String → List String) (st : List String) (key : String),
      (key ∈ st → handleOrderKey enum st key = (st, false)) ∧
      (key ∉ st → st.Nodup → (enum (st ++ [key])).Perm (st ++ [key]) →
        (handleOrderKey enum st key).2 = true ∧
        (handleOrderKey enum st key).1.length =
          (if 10000 < st.length + 1 then st.length + 1 - 5000
            else st.length + 1) ∧
        (st.length ≤ 10000 → (handleOrderKey enum st key).1.length ≤ 10000)) := by
  intro enum st key
  constructor
  · intro hmem
    unfold handleOrderKey
    rw [if_pos (contains_iff_mem.mpr hmem)]
  · intro hnot hnodup hperm
    have hcont : st.contains key = false :=
      Bool.eq_false_iff.mpr (fun hc => hnot (contains_iff_mem.mp hc))
    have hlen1 : (st ++ [key]).length = st.length + 1 := by simp
    by_cases hbig : 10000 < (st ++ [key]).length
    · have hnodup1 : (st ++ [key]).Nodup := by
        rw [List.nodup_append]
        refine ⟨hnodup, List.nodup_singleton key, ?_⟩
        intro a ha hb
        rw [List.mem_singleton] at hb
        subst hb
        exact hnot ha
      have hEnodup : (enum (st ++ [key])).Nodup := hnodup1.perm hperm.symm
      have hElen : (enum (st ++ [key])).length = st.length + 1 := by
        rw [hperm.length_eq, hlen1]
      have hfilterE := filter_not_mem_left ((enum (st ++ [key])).take 5000)
        ((enum (st ++ [key])).drop 5000)
        (by rw [List.take_append_drop]; exact hEnodup)
      rw [List.take_append_drop] at hfilterE
      have hres : handleOrderKey enum st key =
          ((st ++ [key]).filter
            (fun x => !((enum (st ++ [key])).take 5000).contains x), true) := by
        unfold handleOrderKey
        rw [hcont]
        simp only [Bool.false_eq_true, if_false, if_pos hbig]
      have hres1 : (handleOrderKey enum st key).1 =
          (st ++ [key]).filter
            (fun x => !((enum (st ++ [key])).take 5000).contains x) := by
        rw [hres]
      have hres2 : (handleOrderKey enum st key).2 = true := by rw [hres]
      have hlenres : (handleOrderKey enum st key).1.length =
          st.length + 1 - 5000 := by
        rw [hres1,
          (List.Perm.filter
            (fun x => !((enum (st ++ [key])).take 5000).contains x)
            hperm.symm).length_eq,
          hfilterE, List.length_drop, hElen]
      rw [hlen1] at hbig
      refine ⟨hres2, ?_, ?_⟩
      · rw [hlenres, if_pos hbig]
      · intro hb10
        rw [hlenres]
        omega
    · have hres : handleOrderKey enum st key = (st ++ [key], true) := by
        unfold handleOrderKey
        rw [hcont]
        simp only [Bool.false_eq_true, if_false, if_neg hbig]
      have hres1 : (handleOrderKey enum st key).1 = st ++ [key] := by rw [hres]
      have hres2 : (handleOrderKey enum st key).2 = true := by rw [hres]
      rw [hlen1] at hbig
      refine ⟨hres2, ?_, ?_⟩
      · rw [hres1, hlen1, if_neg hbig]
      · intro hb10
        rw [hres1, hlen1]
        omega

/-- C8 witness: the amended statement at a tiny concrete set — a seen
key is dropped without forwarding, a new key is forwarded and kept
within the bound. -/
theorem c8_dedup_witness :
    handleOrderKey id ["a"] "a" = (["a"], false) ∧
      (handleOrderKey id ["a"] "b").2 = true ∧
      (handleOrderKey id ["a"] "b").1.length =
        (if 10000 < (["a"] : List String).length + 1
          then (["a"] : List String).length + 1 - 5000
          else (["a"] : List String).length + 1) ∧
      ((["a"] : List String).length ≤ 10000 →
        (handleOrderKey id ["a"] "b").1.length ≤ 10000) := by
  refine ⟨(c8_dedup_and_bounded id ["a"] "a").1 (by simp), ?_⟩
  exact (c8_dedup_and_bounded id ["a"] "b").2 (by simp) (by simp)
    (List.Perm.refl _)
